import Mathlib

/-!
Shallow embedding of the core financial arithmetic of the astroport-core
contracts (constant-product pair, TWAP accumulator, staking ledger and the
maker bridge validator), together with theorems settling the specification
claims about them.

Machine integers are embedded as `Nat` with the explicit width checks of
the host arithmetic library made visible: every operation of the source
that can panic or error (checked subtraction, overflow of a narrowing
conversion, division by zero) is modelled as an `Option`/`Except` step, so
`none` means the call aborts.  `Decimal`/`Decimal256` values are 18-decimal
fixed-point numbers represented by their integer atomics.
-/

namespace Astroport

/-- Scale of the 18-decimal fixed-point numbers (`Decimal::DECIMAL_FRACTIONAL`
and `Decimal256::DECIMAL_FRACTIONAL` in the host library). -/
def DECIMAL_FRACTIONAL : Nat := 10 ^ 18

/-- One past the largest value representable by a `Uint128`. -/
def U128LIM : Nat := 2 ^ 128

/-- One past the largest value representable by a `Uint256`. -/
def U256LIM : Nat := 2 ^ 256

/-- Checked subtraction: `a - b`, failing (panic or `OverflowError`) when
`b > a`.  Models `Uint128`/`Uint256`/`Decimal256` subtraction. -/
def checkedSub (a b : Nat) : Option Nat :=
  if b ≤ a then some (a - b) else none

/-- Narrowing to the `Uint128` width, failing on overflow
(`Uint128::try_from`, `checked_mul` and the narrowing step of
`Uint128::multiply_ratio`). -/
def narrowU128 (a : Nat) : Option Nat :=
  if a < U128LIM then some a else none

/-- Narrowing to the `Uint256` width, failing on overflow (the narrowing
step of `Uint256::multiply_ratio`, hence of `Decimal256::from_ratio` and of
`Uint256 * Decimal256`). -/
def narrowU256 (a : Nat) : Option Nat :=
  if a < U256LIM then some a else none

/-- `Decimal256::from_ratio(n, d)` returns the atomics
`⌊n * 10^18 / d⌋`, panicking on a zero denominator or on overflow of the
256-bit result. -/
def decimal256FromFrac (n d : Nat) : Option Nat :=
  if d = 0 then none else narrowU256 (n * DECIMAL_FRACTIONAL / d)

/-- `Decimal::from_ratio(n, d)` (128-bit atomics variant). -/
def decimalFromFrac (n d : Nat) : Option Nat :=
  if d = 0 then none else narrowU128 (n * DECIMAL_FRACTIONAL / d)

/-- `Decimal256::to_uint_ceil` on a value given by its atomics: the integer
ceiling of `atomics / 10^18`, written as in the source
(`0` for `0`, else `(x - 1) / 10^18 + 1`). -/
def toUintCeil (atomics : Nat) : Nat :=
  if atomics = 0 then 0 else (atomics - 1) / DECIMAL_FRACTIONAL + 1

/-- `Uint256 * Decimal256` (also `Decimal256 * Uint256`): floor
multiplication by the fixed-point factor,
`x.multiply_ratio(atomics, 10^18)`, with the 256-bit narrowing check. -/
def mulFloorU256 (x atomics : Nat) : Option Nat :=
  narrowU256 (x * atomics / DECIMAL_FRACTIONAL)

/-- `Uint128 * Decimal`: floor multiplication by the fixed-point factor with
the 128-bit narrowing check. -/
def mulFloorU128 (x atomics : Nat) : Option Nat :=
  narrowU128 (x * atomics / DECIMAL_FRACTIONAL)

/-- `Uint128::multiply_ratio(a; n, d)` = `⌊a * n / d⌋`, panicking on a zero
denominator and on overflow of the narrowed result. -/
def multiplyFracU128 (a n d : Nat) : Option Nat :=
  if d = 0 then none else narrowU128 (a * n / d)

/-- `Uint256::multiply_ratio(a; n, d)`. -/
def multiplyFracU256 (a n d : Nat) : Option Nat :=
  if d = 0 then none else narrowU256 (a * n / d)

/-!  ## Pool pricing engine (`contracts/pair/src/contract.rs`) -/

/-- `compute_swap(offer_pool, ask_pool, offer_amount, commission_rate)`.
The pools and the offer amount are `Uint128` values promoted to `Uint256`;
the commission rate is a fixed-point decimal given by its atomics.
Returns `(return_amount, spread_amount, commission_amount)`; `none` models
an aborted call (a panicking checked operation). -/
def compute_swap (offer_pool ask_pool offer_amount rate : Nat) :
    Option (Nat × Nat × Nat) := do
  -- cp = offer_pool * ask_pool  (Uint256 product of two Uint128 values);
  -- return_amount = ask_pool - from_ratio(cp, offer_pool + offer_amount).to_uint_ceil()
  let q ← decimal256FromFrac (offer_pool * ask_pool) (offer_pool + offer_amount)
  let return0 ← checkedSub ask_pool (toUintCeil q)
  -- spread_amount = offer_amount * from_ratio(ask_pool, offer_pool) - return_amount
  let ratio ← decimal256FromFrac ask_pool offer_pool
  let quote ← mulFloorU256 offer_amount ratio
  let spread ← checkedSub quote return0
  let spread128 ← narrowU128 spread
  -- commission_amount = return_amount * commission_rate
  let commission ← mulFloorU256 return0 rate
  let commission128 ← narrowU128 commission
  -- return_amount = return_amount - commission_amount
  let ret ← checkedSub return0 commission
  let ret128 ← narrowU128 ret
  some (ret128, spread128, commission128)

/-- `compute_offer_amount(offer_pool, ask_pool, ask_amount, commission_rate)`.
Returns `(offer_amount, spread_amount, commission_amount)`; `none` models an
aborted call (panic or unwrapped error). -/
def compute_offer_amount (offer_pool ask_pool ask_amount rate : Nat) :
    Option (Nat × Nat × Nat) := do
  -- cp = Uint256::from_uint128(offer_pool * ask_pool)  (the product is taken
  -- at the Uint128 width first, so it is overflow-checked)
  let cp ← narrowU128 (offer_pool * ask_pool)
  -- one_minus_commission = Decimal256::one() - commission_rate
  let one_minus ← checkedSub DECIMAL_FRACTIONAL rate
  -- inv_one_minus_commission = Decimal256::one() / one_minus_commission
  let inv ← decimal256FromFrac DECIMAL_FRACTIONAL one_minus
  -- a = inv_one_minus_commission * ask_amount ; b = ask_pool.checked_sub(a).unwrap()
  let a ← mulFloorU256 ask_amount inv
  let b ← checkedSub ask_pool a
  -- offer_amount = cp.multiply_ratio(1, b).checked_sub(offer_pool).unwrap()
  let q ← multiplyFracU256 cp 1 b
  let offer0 ← checkedSub q offer_pool
  let offer128 ← narrowU128 offer0
  -- before_commission_deduction = inv_one_minus_commission * ask_amount
  let before ← mulFloorU256 ask_amount inv
  -- spread_amount = (from_ratio(ask_pool, offer_pool) * offer_amount)
  --                   .checked_sub(before).unwrap_or(0)
  let ratio ← decimal256FromFrac ask_pool offer_pool
  let sp0 ← mulFloorU256 offer128 ratio
  let spread128 ← narrowU128 (sp0 - before)
  -- commission_amount = commission_rate * before_commission_deduction
  let commission ← mulFloorU256 before rate
  let commission128 ← narrowU128 commission
  some (offer128, spread128, commission128)

/-!  ## TWAP oracle accumulator (`contracts/pair/src/contract.rs`) -/

/-- Modelled from the spec: the fixed-point scale exponent of the TWAP
accumulators (`TWAP_PRECISION`, a constant of the `astroport` package whose
source is not part of this tree; the spec only calls it the
"price precision scale").  The claims about `accumulate_prices` treat it
symbolically, so its concrete value is immaterial to them. -/
def TWAP_PRECISION : Nat := 6

/-- `price_precision = 10^TWAP_PRECISION` as in `accumulate_prices`. -/
def price_precision : Nat := 10 ^ TWAP_PRECISION

/-- `accumulate_prices(env, config, x, y)` on the pure data it reads: the
current block time, the stored `block_time_last`, the two pool balances and
the two stored cumulative prices.  The outer `Option` models the
`StdResult`/panic failure modes, the inner one the source's
`Option<(Uint128, Uint128, u64)>` (`none` = no update). -/
def accumulate_prices (block_time block_time_last x y pcl0 pcl1 : Nat) :
    Option (Option (Nat × Nat × Nat)) :=
  if block_time ≤ block_time_last then some none
  else
    -- time_elapsed = block_time - block_time_last
    if x ≠ 0 ∧ y ≠ 0 then do
      -- pcl = pcl.wrapping_add(time_elapsed.checked_mul(price_precision)?
      --                                     .multiply_ratio(other, this))
      let m ← narrowU128 ((block_time - block_time_last) * price_precision)
      let i0 ← multiplyFracU128 m y x
      let i1 ← multiplyFracU128 m x y
      some (some ((pcl0 + i0) % U128LIM, (pcl1 + i1) % U128LIM, block_time))
    else some (some (pcl0, pcl1, block_time))

/-!  ## Liquidity accounting engine (`contracts/pair/src/contract.rs`) -/

/-- The pool-adjustment step of `provide_liquidity`: for a native asset the
freshly queried balance already contains the just-received deposit, so the
deposit is subtracted back out (`checked_sub`, erroring on underflow); a
token asset's queried balance is used as is (the transfer-from is only
emitted as an instruction). -/
def adjustPool (native : Bool) (queried deposit : Nat) : Option Nat :=
  if native then checkedSub queried deposit else some queried

/-- The share computation of `provide_liquidity`: deposits are rejected if
either amount is zero; the queried pool balances are adjusted to pre-deposit
reserves; the bootstrap deposit mints `isqrt(deposit0 * deposit1)` and later
deposits mint `min(deposit_i * total_share / pool_i)`. -/
def provide_liquidity_share (deposit0 deposit1 queried0 queried1 : Nat)
    (native0 native1 : Bool) (total_share : Nat) : Option Nat := do
  if deposit0 = 0 ∨ deposit1 = 0 then none
  else do
    let pool0 ← adjustPool native0 queried0 deposit0
    let pool1 ← adjustPool native1 queried1 deposit1
    if total_share = 0 then
      -- share = (U256(d0) * U256(d1)).integer_sqrt().as_u128()
      narrowU128 (Nat.sqrt (deposit0 * deposit1))
    else do
      -- share = min(d0.multiply_ratio(total_share, pool0),
      --             d1.multiply_ratio(total_share, pool1))
      let s0 ← multiplyFracU128 deposit0 total_share pool0
      let s1 ← multiplyFracU128 deposit1 total_share pool1
      some (min s0 s1)

/-- `get_share_in_assets(pools, amount, total_share)`: the pro-rata refund
amounts.  `share_ratio` is a 128-bit fixed-point decimal, zero when
`total_share` is zero. -/
def get_share_in_assets (pool0 pool1 amount total_share : Nat) :
    Option (Nat × Nat) := do
  let ratio ← if total_share = 0 then some 0 else decimalFromFrac amount total_share
  let r0 ← mulFloorU128 pool0 ratio
  let r1 ← mulFloorU128 pool1 ratio
  some (r0, r1)

/-- An outbound instruction emitted by `withdraw_liquidity`: a transfer of a
refund amount of one of the two pool assets (identified by its index), or a
burn of liquidity shares. -/
inductive Instr where
  | transfer (asset : Nat) (amount : Nat)
  | burn (amount : Nat)
deriving DecidableEq, Repr

/-- The message-producing core of `withdraw_liquidity`: computes the
refunds with `get_share_in_assets` and emits the two asset transfers
followed by the share burn. -/
def withdraw_liquidity (pool0 pool1 total_share amount : Nat) :
    Option (List Instr) := do
  let (r0, r1) ← get_share_in_assets pool0 pool1 amount total_share
  some [Instr.transfer 0 r0, Instr.transfer 1 r1, Instr.burn amount]

/-!  ## Staking share ledger (`contracts/tokenomics/staking/src/contract.rs`) -/

/-- The mint-amount computation of `receive_cw20`'s `Enter` branch: the
just-arrived deposit is subtracted from the freshly queried total deposit
(`total_deposit -= amount`, a checked subtraction), then
`mint = amount` if the share supply or the netted deposit is zero, else
`⌊amount * total_shares / total_deposit⌋` (`checked_mul` then
`checked_div`). -/
def enter (queried_deposit total_shares amount : Nat) : Option Nat := do
  let total_deposit ← checkedSub queried_deposit amount
  if total_shares = 0 ∨ total_deposit = 0 then some amount
  else do
    let m ← narrowU128 (amount * total_shares)
    some (m / total_deposit)

/-!  ## Fee-routing bridge validator (`contracts/tokenomics/maker/src/utils.rs`) -/

/-- The default bridge depth for a fee token (`BRIDGES_INITIAL_DEPTH`). -/
def BRIDGES_INITIAL_DEPTH : Nat := 0

/-- Maximum amount of bridges to use in a multi-hop swap
(`BRIDGES_MAX_DEPTH`). -/
def BRIDGES_MAX_DEPTH : Nat := 2

/-- The errors `validate_bridge` can report. -/
inductive BridgeError where
  | invalidBridgeNoPool (from_token to_token : Nat)
  | maxBridgeDepth (depth : Nat)
  | invalidBridgeDestination (from_token : Nat)
deriving DecidableEq, Repr

/-- `validate_bridge(deps, cfg, from_token, bridge_token, astro_token, depth)`.
Tokens are abstract identifiers; `pools a b` says the factory has a pool for
the asset pair `[a, b]` (the `get_pool` query succeeds) and `bridges` is the
stored bridge map.  Mirrors the recursion of the source, which only recurses
while `depth < BRIDGES_MAX_DEPTH`. -/
def validate_bridge (pools : Nat → Nat → Bool) (bridges : Nat → Option Nat)
    (astro_token from_token bridge_token depth : Nat) :
    Except BridgeError Unit :=
  -- Check if the bridge pool exists
  if ¬ pools from_token bridge_token then
    .error (.invalidBridgeNoPool from_token bridge_token)
  -- Check if the bridge token - ASTRO pool exists
  else if pools bridge_token astro_token then .ok ()
  else if BRIDGES_MAX_DEPTH ≤ depth then .error (.maxBridgeDepth depth)
  else
    -- Check if next level of bridge exists
    match bridges bridge_token with
    | none => .error (.invalidBridgeDestination from_token)
    | some next => validate_bridge pools bridges astro_token bridge_token next (depth + 1)
termination_by BRIDGES_MAX_DEPTH - depth
decreasing_by omega

/-- Reaches the protocol token within `n` further bridge hops: either the
current token has a direct pool with the protocol token, or its configured
bridge edge exists, is backed by a pool, and reaches within `n - 1`. -/
def reachesAstro (pools : Nat → Nat → Bool) (bridges : Nat → Option Nat)
    (astro_token : Nat) : Nat → Nat → Bool
  | t, 0 => pools t astro_token
  | t, n + 1 =>
    pools t astro_token ||
      match bridges t with
      | none => false
      | some next => pools t next && reachesAstro pools bridges astro_token next n

/-!  ## Helper lemmas about the arithmetic layer -/

theorem DECIMAL_FRACTIONAL_pos : 0 < DECIMAL_FRACTIONAL := by
  unfold DECIMAL_FRACTIONAL; positivity

theorem checkedSub_eq_some {a b c : Nat} (h : checkedSub a b = some c) :
    b ≤ a ∧ c = a - b := by
  unfold checkedSub at h
  split at h
  · exact ⟨by assumption, (Option.some_inj.mp h).symm⟩
  · exact absurd h (by simp)

theorem checkedSub_of_le {a b : Nat} (h : b ≤ a) :
    checkedSub a b = some (a - b) := by
  unfold checkedSub
  exact if_pos h

theorem checkedSub_of_lt {a b : Nat} (h : a < b) : checkedSub a b = none := by
  unfold checkedSub
  exact if_neg (by omega)

theorem narrowU128_eq_some {a c : Nat} (h : narrowU128 a = some c) :
    a < U128LIM ∧ c = a := by
  unfold narrowU128 at h
  split at h
  · exact ⟨by assumption, (Option.some_inj.mp h).symm⟩
  · exact absurd h (by simp)

theorem narrowU128_of_lt {a : Nat} (h : a < U128LIM) : narrowU128 a = some a := by
  unfold narrowU128
  exact if_pos h

theorem narrowU256_eq_some {a c : Nat} (h : narrowU256 a = some c) :
    a < U256LIM ∧ c = a := by
  unfold narrowU256 at h
  split at h
  · exact ⟨by assumption, (Option.some_inj.mp h).symm⟩
  · exact absurd h (by simp)

theorem narrowU256_of_lt {a : Nat} (h : a < U256LIM) : narrowU256 a = some a := by
  unfold narrowU256
  exact if_pos h

theorem decimal256FromFrac_eq_some {n d c : Nat}
    (h : decimal256FromFrac n d = some c) :
    d ≠ 0 ∧ c = n * DECIMAL_FRACTIONAL / d := by
  unfold decimal256FromFrac at h
  split at h
  · exact absurd h (by simp)
  · exact ⟨by assumption, (narrowU256_eq_some h).2⟩

theorem decimal256FromFrac_of {n d : Nat} (hd : d ≠ 0)
    (hlt : n * DECIMAL_FRACTIONAL / d < U256LIM) :
    decimal256FromFrac n d = some (n * DECIMAL_FRACTIONAL / d) := by
  unfold decimal256FromFrac
  rw [if_neg hd]
  exact narrowU256_of_lt hlt

theorem mulFloorU256_eq_some {x a c : Nat} (h : mulFloorU256 x a = some c) :
    c = x * a / DECIMAL_FRACTIONAL := by
  unfold mulFloorU256 at h
  exact (narrowU256_eq_some h).2

theorem mulFloorU256_of {x a : Nat}
    (hlt : x * a / DECIMAL_FRACTIONAL < U256LIM) :
    mulFloorU256 x a = some (x * a / DECIMAL_FRACTIONAL) := by
  unfold mulFloorU256
  exact narrowU256_of_lt hlt

theorem mulFloorU128_eq_some {x a c : Nat} (h : mulFloorU128 x a = some c) :
    c = x * a / DECIMAL_FRACTIONAL ∧ x * a / DECIMAL_FRACTIONAL < U128LIM := by
  unfold mulFloorU128 at h
  exact ⟨(narrowU128_eq_some h).2, (narrowU128_eq_some h).1⟩

theorem multiplyFracU128_eq_some {a n d c : Nat}
    (h : multiplyFracU128 a n d = some c) :
    d ≠ 0 ∧ c = a * n / d ∧ a * n / d < U128LIM := by
  unfold multiplyFracU128 at h
  split at h
  · exact absurd h (by simp)
  · exact ⟨by assumption, (narrowU128_eq_some h).2, (narrowU128_eq_some h).1⟩

theorem multiplyFracU128_of {a n d : Nat} (hd : d ≠ 0)
    (hlt : a * n / d < U128LIM) :
    multiplyFracU128 a n d = some (a * n / d) := by
  unfold multiplyFracU128
  rw [if_neg hd]
  exact narrowU128_of_lt hlt

theorem DF_eq : DECIMAL_FRACTIONAL = 1000000000000000000 := by
  norm_num [DECIMAL_FRACTIONAL]

/-- Characterization of the `(x + d - 1) / d` ceiling division. -/
theorem add_pred_div_eq (cp : Nat) {d : Nat} (hd : 0 < d) :
    (cp + d - 1) / d = cp / d + (if cp % d = 0 then 0 else 1) := by
  obtain ⟨m, r, hcp, hrlt⟩ : ∃ m r, cp = d * m + r ∧ r < d :=
    ⟨cp / d, cp % d, by rw [Nat.div_add_mod], Nat.mod_lt _ hd⟩
  subst hcp
  rw [Nat.mul_add_div hd, Nat.mul_add_mod, Nat.div_eq_of_lt hrlt,
    Nat.mod_eq_of_lt hrlt]
  by_cases h0 : r = 0
  · rw [if_pos h0, h0]
    rw [show d * m + 0 + d - 1 = d * m + (d - 1) by omega,
      Nat.mul_add_div hd, Nat.div_eq_of_lt (by omega)]
  · rw [if_neg h0]
    rw [show d * m + r + d - 1 = d * (m + 1) + (r - 1) by
      rw [Nat.mul_add, Nat.mul_one]; omega,
      Nat.mul_add_div hd, Nat.div_eq_of_lt (by omega)]

/-- Ceiling division dominates the exact quotient: `d * ⌈cp / d⌉ ≥ cp`. -/
theorem le_mul_add_pred_div (cp : Nat) {d : Nat} (hd : 0 < d) :
    cp ≤ d * ((cp + d - 1) / d) := by
  rw [add_pred_div_eq cp hd]
  have hmod := Nat.div_add_mod cp d
  have hrlt : cp % d < d := Nat.mod_lt _ hd
  by_cases h0 : cp % d = 0
  · rw [h0, if_pos rfl, Nat.add_zero]
    omega
  · rw [if_neg h0, Nat.mul_add, Nat.mul_one]
    omega

/-- `toUintCeil` is the ceiling of the atomics over the fixed-point scale. -/
theorem toUintCeil_eq (q : Nat) :
    toUintCeil q = (q + DECIMAL_FRACTIONAL - 1) / DECIMAL_FRACTIONAL := by
  unfold toUintCeil
  rw [DF_eq]
  split <;> omega

/-- Monotone bound for `toUintCeil`. -/
theorem toUintCeil_le {q c : Nat} (h : q ≤ c * DECIMAL_FRACTIONAL) :
    toUintCeil q ≤ c := by
  unfold toUintCeil
  rw [DF_eq] at h ⊢
  split <;> omega

/-- The key precision fact: as long as the denominator does not exceed the
fixed-point scale, the ceiling taken on the 18-decimal quotient agrees with
the exact integer ceiling. -/
theorem toUintCeil_fromFrac (cp : Nat) {d : Nat} (hd : 0 < d)
    (hdS : d ≤ DECIMAL_FRACTIONAL) :
    toUintCeil (cp * DECIMAL_FRACTIONAL / d) = (cp + d - 1) / d := by
  have hS := DECIMAL_FRACTIONAL_pos
  obtain ⟨m, r, hcp, hrlt⟩ : ∃ m r, cp = d * m + r ∧ r < d :=
    ⟨cp / d, cp % d, by rw [Nat.div_add_mod], Nat.mod_lt _ hd⟩
  subst hcp
  have hq : (d * m + r) * DECIMAL_FRACTIONAL / d =
      m * DECIMAL_FRACTIONAL + r * DECIMAL_FRACTIONAL / d := by
    rw [show (d * m + r) * DECIMAL_FRACTIONAL =
      d * (m * DECIMAL_FRACTIONAL) + r * DECIMAL_FRACTIONAL by ring,
      Nat.mul_add_div hd]
  rw [hq, add_pred_div_eq _ hd, Nat.mul_add_div hd, Nat.mul_add_mod,
    Nat.div_eq_of_lt hrlt, Nat.mod_eq_of_lt hrlt]
  have he : r * DECIMAL_FRACTIONAL / d < DECIMAL_FRACTIONAL := by
    rw [Nat.div_lt_iff_lt_mul hd]
    calc r * DECIMAL_FRACTIONAL < d * DECIMAL_FRACTIONAL :=
          (Nat.mul_lt_mul_right hS).mpr hrlt
      _ = DECIMAL_FRACTIONAL * d := Nat.mul_comm _ _
  by_cases hr0 : r = 0
  · rw [if_pos hr0, hr0]
    simp only [Nat.zero_mul, Nat.zero_div, Nat.add_zero]
    rw [toUintCeil_eq]
    simp only [DF_eq] at *
    omega
  · rw [if_neg hr0]
    have hge : 1 ≤ r * DECIMAL_FRACTIONAL / d := by
      rw [Nat.one_le_div_iff hd]
      calc d ≤ DECIMAL_FRACTIONAL := hdS
        _ ≤ r * DECIMAL_FRACTIONAL := Nat.le_mul_of_pos_left _ (by omega)
    rw [toUintCeil_eq]
    simp only [DF_eq] at he hge ⊢
    omega

theorem multiplyFracU256_eq_some {a n d c : Nat}
    (h : multiplyFracU256 a n d = some c) :
    d ≠ 0 ∧ c = a * n / d := by
  unfold multiplyFracU256 at h
  split at h
  · exact absurd h (by simp)
  · exact ⟨by assumption, (narrowU256_eq_some h).2⟩

theorem U128LIM_mul_DF_lt : U128LIM * DECIMAL_FRACTIONAL < U256LIM := by
  norm_num [U128LIM, DECIMAL_FRACTIONAL, U256LIM]

theorem DF_sq_div_lt (r : Nat) :
    DECIMAL_FRACTIONAL * DECIMAL_FRACTIONAL / (DECIMAL_FRACTIONAL - r) <
      U256LIM := by
  have h1 : DECIMAL_FRACTIONAL * DECIMAL_FRACTIONAL / (DECIMAL_FRACTIONAL - r) ≤
      DECIMAL_FRACTIONAL * DECIMAL_FRACTIONAL := Nat.div_le_self _ _
  have h2 : DECIMAL_FRACTIONAL * DECIMAL_FRACTIONAL < U256LIM := by
    norm_num [DECIMAL_FRACTIONAL, U256LIM]
  omega

/-- Inversion of a successful `compute_offer_amount` run, exposing the
fixed-point before-commission amount
`A = ⌊ask_amount · ⌊10^36 / (10^18 - rate)⌋ / 10^18⌋` and the returned
offer amount `⌊k / (ask_pool - A)⌋ - offer_pool`. -/
theorem compute_offer_amount_eq_some_inv {op ap aa rate o s c : Nat}
    (h : compute_offer_amount op ap aa rate = some (o, s, c)) :
    op * ap < U128LIM ∧ rate < DECIMAL_FRACTIONAL ∧
    aa * (DECIMAL_FRACTIONAL * DECIMAL_FRACTIONAL / (DECIMAL_FRACTIONAL - rate)) /
        DECIMAL_FRACTIONAL ≤ ap ∧
    ap - aa * (DECIMAL_FRACTIONAL * DECIMAL_FRACTIONAL /
        (DECIMAL_FRACTIONAL - rate)) / DECIMAL_FRACTIONAL ≠ 0 ∧
    o = op * ap * 1 / (ap - aa * (DECIMAL_FRACTIONAL * DECIMAL_FRACTIONAL /
        (DECIMAL_FRACTIONAL - rate)) / DECIMAL_FRACTIONAL) - op := by
  unfold compute_offer_amount at h
  simp only [bind, Option.bind_eq_some] at h
  obtain ⟨cp, hcp, om, hom, inv, hinv, a, ha, b, hb, q, hq, o0, ho0, o1, ho1,
    bf, hbf, ratio, hratio, s0, hs0, s1, hs1, c0, hc0, c1, hc1, hfin⟩ := h
  obtain ⟨hcplt, hcpv⟩ := narrowU128_eq_some hcp
  obtain ⟨hrle, homv⟩ := checkedSub_eq_some hom
  obtain ⟨homne, hinvv⟩ := decimal256FromFrac_eq_some hinv
  have hav := mulFloorU256_eq_some ha
  obtain ⟨hble, hbv⟩ := checkedSub_eq_some hb
  obtain ⟨hbne, hqv⟩ := multiplyFracU256_eq_some hq
  obtain ⟨hole, ho0v⟩ := checkedSub_eq_some ho0
  obtain ⟨_, ho1v⟩ := narrowU128_eq_some ho1
  obtain ⟨ho, _, _⟩ : o = o1 ∧ s = s1 ∧ c = c1 := by
    injection hfin with hfin
    injection hfin with h1 hfin
    injection hfin with h2 h3
    exact ⟨h1.symm, h2.symm, h3.symm⟩
  subst ho ho1v ho0v hqv hbv hav hinvv homv hcpv
  have hrlt : rate < DECIMAL_FRACTIONAL := by
    rcases Nat.lt_or_ge rate DECIMAL_FRACTIONAL with h | h
    · exact h
    · exact absurd (by omega : DECIMAL_FRACTIONAL - rate = 0) homne
  exact ⟨hcplt, hrlt, hble, hbne, rfl⟩

theorem U128LIM_le_U256LIM : U128LIM ≤ U256LIM := by
  norm_num [U128LIM, U256LIM]

/-- Full inversion of a successful `compute_swap` run: with
`t = toUintCeil(cp·10^18 / (offer_pool + offer_amount))` the pre-commission
return is `ask_pool - t`, the spread is the floor no-slippage quote minus
it, the commission is the floor fixed-point product, and the final return
is the pre-commission return minus the commission. -/
theorem compute_swap_eq_some_inv {op ap oa rate ret sp com : Nat}
    (h : compute_swap op ap oa rate = some (ret, sp, com)) :
    op + oa ≠ 0 ∧ op ≠ 0 ∧
    toUintCeil (op * ap * DECIMAL_FRACTIONAL / (op + oa)) ≤ ap ∧
    (ap - toUintCeil (op * ap * DECIMAL_FRACTIONAL / (op + oa)) ≤
      oa * (ap * DECIMAL_FRACTIONAL / op) / DECIMAL_FRACTIONAL) ∧
    sp = oa * (ap * DECIMAL_FRACTIONAL / op) / DECIMAL_FRACTIONAL -
      (ap - toUintCeil (op * ap * DECIMAL_FRACTIONAL / (op + oa))) ∧
    com = (ap - toUintCeil (op * ap * DECIMAL_FRACTIONAL / (op + oa))) * rate /
      DECIMAL_FRACTIONAL ∧
    com ≤ ap - toUintCeil (op * ap * DECIMAL_FRACTIONAL / (op + oa)) ∧
    ret = (ap - toUintCeil (op * ap * DECIMAL_FRACTIONAL / (op + oa))) - com := by
  unfold compute_swap at h
  simp only [bind, Option.bind_eq_some] at h
  obtain ⟨q, hq, pre, hpre, ratio, hratio, quote, hquote, s0, hs0, s1, hs1,
    c0, hc0, c1, hc1, r0, hr0, r1, hr1, hfin⟩ := h
  obtain ⟨hd, hqv⟩ := decimal256FromFrac_eq_some hq
  obtain ⟨hta, hprev⟩ := checkedSub_eq_some hpre
  obtain ⟨hopne, hratiov⟩ := decimal256FromFrac_eq_some hratio
  have hquotev := mulFloorU256_eq_some hquote
  obtain ⟨hpq, hs0v⟩ := checkedSub_eq_some hs0
  obtain ⟨_, hs1v⟩ := narrowU128_eq_some hs1
  have hc0v := mulFloorU256_eq_some hc0
  obtain ⟨_, hc1v⟩ := narrowU128_eq_some hc1
  obtain ⟨hcp, hr0v⟩ := checkedSub_eq_some hr0
  obtain ⟨_, hr1v⟩ := narrowU128_eq_some hr1
  obtain ⟨he1, he2, he3⟩ : ret = r1 ∧ sp = s1 ∧ com = c1 := by
    injection hfin with hfin
    injection hfin with h1 hfin
    injection hfin with h2 h3
    exact ⟨h1.symm, h2.symm, h3.symm⟩
  subst he1 he2 he3 hqv hprev hratiov hquotev hs0v hs1v hc0v hc1v hr0v hr1v
  refine ⟨by omega, hopne, ?_, ?_, rfl, rfl, hcp, rfl⟩
  · omega
  · exact hpq

/-!  ## Claim C1: constant-product non-decrease -/

/-- C1, counterexample: at reserves `2^64, 2^64`, offer amount `1` and zero
fee the swap succeeds and returns `1`, and the post-swap product of reserves
`(2^64 + 1) * (2^64 - 1) = 2^128 - 1` is strictly below the pre-swap product
`2^128`: the 18-decimal fixed-point quotient loses the ceiling once the
denominator exceeds `10^18`, so the constant product can decrease. -/
theorem compute_swap_constant_product_decreases :
    compute_swap (2 ^ 64) (2 ^ 64) 1 0 = some (1, 0, 0) ∧
    (2 ^ 64 + 1) * (2 ^ 64 - 1) < 2 ^ 64 * 2 ^ 64 := by
  constructor
  · decide
  · norm_num

/-- C1, amended: for every successful swap with positive reserves, positive
offer amount, fee rate in `[0, 1)` and `offer_reserve + offer_amount` not
exceeding the fixed-point scale `10^18`, the post-swap product of reserves
`(offer_reserve + offer_amount) * (ask_reserve - return_amount)` is at least
the pre-swap product `offer_reserve * ask_reserve`. -/
theorem compute_swap_constant_product_nondecrease
    (op ap oa rate ret sp com : Nat)
    (hop : 0 < op) (hap : 0 < ap) (hoa : 0 < oa)
    (hrate : rate < DECIMAL_FRACTIONAL)
    (hscale : op + oa ≤ DECIMAL_FRACTIONAL)
    (h : compute_swap op ap oa rate = some (ret, sp, com)) :
    op * ap ≤ (op + oa) * (ap - ret) := by
  obtain ⟨hd, hop0, htle, hpv, hsp, hcom, hcle, hret⟩ := compute_swap_eq_some_inv h
  have hdpos : 0 < op + oa := by omega
  have hceil := toUintCeil_fromFrac (op * ap) hdpos hscale
  have hkey := le_mul_add_pred_div (op * ap) hdpos
  set t := toUintCeil (op * ap * DECIMAL_FRACTIONAL / (op + oa)) with ht
  have h1 : t ≤ ap - ret := by omega
  calc op * ap ≤ (op + oa) * ((op * ap + (op + oa) - 1) / (op + oa)) := hkey
    _ = (op + oa) * t := by rw [hceil]
    _ ≤ (op + oa) * (ap - ret) := Nat.mul_le_mul_left _ h1

/-- C1, witness: the amended theorem applied to the pool `(10^6, 10^6)` with
offer `1000` and fee `0.3%`, where the swap returns `(997, 1, 2)`. -/
theorem compute_swap_constant_product_nondecrease_witness :
    1000000 * 1000000 ≤ (1000000 + 1000) * (1000000 - 997) :=
  compute_swap_constant_product_nondecrease 1000000 1000000 1000
    (3 * 10 ^ 15) 997 1 2 (by norm_num) (by norm_num) (by norm_num)
    (by norm_num [DECIMAL_FRACTIONAL]) (by norm_num [DECIMAL_FRACTIONAL])
    (by decide)

/-!  ## Claim C2: the swap return/commission formulas -/

/-- C2, counterexample: at reserves `2^65, 2^65`, offer amount `1` and zero
fee the code returns `1`, while the claimed formula
`ask_reserve - ⌈k / (offer_reserve + offer_amount)⌉` yields `0`: the
quotient is computed through 18-decimal fixed point, which here rounds the
ceiling down. -/
theorem compute_swap_formula_mismatch :
    compute_swap (2 ^ 65) (2 ^ 65) 1 0 = some (1, 0, 0) ∧
    2 ^ 65 - (2 ^ 65 * 2 ^ 65 + (2 ^ 65 + 1) - 1) / (2 ^ 65 + 1) ≠ 1 := by
  constructor
  · decide
  · decide

/-- C2, amended: whenever `offer_reserve + offer_amount ≤ 10^18` (so the
fixed-point quotient realizes the exact ceiling) and the swap succeeds, the
pre-commission return is `ask_reserve - ⌈k / (offer_reserve +
offer_amount)⌉` with `k = offer_reserve * ask_reserve`, the commission is
the floor fixed-point product of that with the fee rate, and the returned
amount is the pre-commission return minus the commission. -/
theorem compute_swap_formula (op ap oa rate ret sp com : Nat)
    (hop : 0 < op) (hap : 0 < ap)
    (hscale : op + oa ≤ DECIMAL_FRACTIONAL)
    (h : compute_swap op ap oa rate = some (ret, sp, com)) :
    com = (ap - (op * ap + (op + oa) - 1) / (op + oa)) * rate /
      DECIMAL_FRACTIONAL ∧
    ret = (ap - (op * ap + (op + oa) - 1) / (op + oa)) - com := by
  obtain ⟨hd, hop0, htle, hpv, hsp, hcom, hcle, hret⟩ := compute_swap_eq_some_inv h
  have hdpos : 0 < op + oa := by omega
  have hceil := toUintCeil_fromFrac (op * ap) hdpos hscale
  rw [hceil] at hcom hret
  exact ⟨hcom, hret⟩

/-- C2, witness: the amended formulas instantiated on the pool
`(10^6, 10^6)` with offer `1000` and fee `0.3%`. -/
theorem compute_swap_formula_witness :
    (2 : Nat) = (1000000 - (1000000 * 1000000 + (1000000 + 1000) - 1) /
      (1000000 + 1000)) * (3 * 10 ^ 15) / DECIMAL_FRACTIONAL ∧
    (997 : Nat) = (1000000 - (1000000 * 1000000 + (1000000 + 1000) - 1) /
      (1000000 + 1000)) - 2 :=
  compute_swap_formula 1000000 1000000 1000 (3 * 10 ^ 15) 997 1 2
    (by norm_num) (by norm_num) (by norm_num [DECIMAL_FRACTIONAL]) (by decide)

/-!  ## Claim C3: negative spread difference -/

/-- C3, counterexample: at reserves `(3·10^18 - 1, 3·10^18 - 2)` with offer
amount `1` and zero fee the floor no-slippage quote (`0`) falls below the
pre-commission return (`1`), and `compute_swap` aborts (the spread
subtraction underflows) instead of clamping the spread to zero. -/
theorem compute_swap_negative_spread_is_not_clamped :
    1 * ((3 * 10 ^ 18 - 2) * DECIMAL_FRACTIONAL / (3 * 10 ^ 18 - 1)) /
        DECIMAL_FRACTIONAL <
      (3 * 10 ^ 18 - 2) -
        toUintCeil ((3 * 10 ^ 18 - 1) * (3 * 10 ^ 18 - 2) *
          DECIMAL_FRACTIONAL / (3 * 10 ^ 18 - 1 + 1)) ∧
    compute_swap (3 * 10 ^ 18 - 1) (3 * 10 ^ 18 - 2) 1 0 = none := by
  constructor
  · decide
  · decide

/-- C3, amended: in `compute_swap` the spread subtraction is an unchecked
(panicking) subtraction, so whenever the floor no-slippage quote
`offer_amount * (ask_reserve / offer_reserve)` evaluates below the
pre-commission return the call aborts rather than returning a zero spread
(the zero-clamp exists only in `compute_offer_amount`). -/
theorem compute_swap_negative_spread_aborts (op ap oa rate : Nat)
    (hop : 0 < op) (hap : ap < U128LIM)
    (hneg : oa * (ap * DECIMAL_FRACTIONAL / op) / DECIMAL_FRACTIONAL <
      ap - toUintCeil (op * ap * DECIMAL_FRACTIONAL / (op + oa))) :
    compute_swap op ap oa rate = none := by
  have hS := DECIMAL_FRACTIONAL_pos
  have hapS : ap * DECIMAL_FRACTIONAL < U256LIM := by
    calc ap * DECIMAL_FRACTIONAL < U128LIM * DECIMAL_FRACTIONAL :=
          (Nat.mul_lt_mul_right hS).mpr hap
      _ < U256LIM := U128LIM_mul_DF_lt
  have hq1 : op * ap * DECIMAL_FRACTIONAL / (op + oa) < U256LIM := by
    have h1 : op * ap * DECIMAL_FRACTIONAL / (op + oa) ≤
        op * ap * DECIMAL_FRACTIONAL / op :=
      Nat.div_le_div_left (by omega) hop
    have h2 : op * ap * DECIMAL_FRACTIONAL / op = ap * DECIMAL_FRACTIONAL := by
      rw [show op * ap * DECIMAL_FRACTIONAL = op * (ap * DECIMAL_FRACTIONAL) by
        ring, Nat.mul_div_cancel_left _ hop]
    omega
  have htle : toUintCeil (op * ap * DECIMAL_FRACTIONAL / (op + oa)) ≤ ap :=
    Nat.le_of_lt (by
      have h0 : 0 < ap - toUintCeil (op * ap * DECIMAL_FRACTIONAL / (op + oa)) :=
        Nat.lt_of_le_of_lt (Nat.zero_le _) hneg
      omega)
  have hquoteltap : oa * (ap * DECIMAL_FRACTIONAL / op) / DECIMAL_FRACTIONAL <
      ap := Nat.lt_of_lt_of_le hneg (Nat.sub_le _ _)
  have hr1 : ap * DECIMAL_FRACTIONAL / op < U256LIM :=
    Nat.lt_of_le_of_lt (Nat.div_le_self _ _) hapS
  have hquote : oa * (ap * DECIMAL_FRACTIONAL / op) / DECIMAL_FRACTIONAL <
      U256LIM :=
    Nat.lt_of_lt_of_le (Nat.lt_trans hquoteltap hap) U128LIM_le_U256LIM
  unfold compute_swap
  rw [decimal256FromFrac_of (by omega) hq1]
  simp only [bind, Option.some_bind]
  rw [checkedSub_of_le htle]
  simp only [Option.some_bind]
  rw [decimal256FromFrac_of (by omega) hr1]
  simp only [Option.some_bind]
  rw [mulFloorU256_of hquote]
  simp only [Option.some_bind]
  rw [checkedSub_of_lt hneg]
  rfl

/-- C3, witness: the amended abort theorem applied at the boundary input
`(3·10^18 - 1, 3·10^18 - 2, 1)` with fee `0.5`. -/
theorem compute_swap_negative_spread_aborts_witness :
    compute_swap (3 * 10 ^ 18 - 1) (3 * 10 ^ 18 - 2) 1 (5 * 10 ^ 17) = none :=
  compute_swap_negative_spread_aborts (3 * 10 ^ 18 - 1) (3 * 10 ^ 18 - 2) 1
    (5 * 10 ^ 17) (by norm_num) (by norm_num [U128LIM]) (by decide)

/-!  ## Claim C10: a single swap cannot drain the ask reserve -/

/-- C10, counterexample: with reserves `(1, 1)` and offer amount `2·10^18`
the fixed-point quotient truncates to zero, so the swap succeeds and pays
out `return_amount + commission_amount = 1`, the whole ask reserve — not
strictly less than it. -/
theorem compute_swap_drains_ask_reserve :
    compute_swap 1 1 (2 * 10 ^ 18) 0 = some (1, 2 * 10 ^ 18 - 1, 0) ∧
    ¬ (1 + 0 < 1) := by
  constructor
  · decide
  · decide

/-- C10, amended: whenever `offer_reserve + offer_amount ≤ 10^18` (so the
subtracted ceiling quotient is at least `1`), a successful swap with both
reserves at least `1` pays out `return_amount + commission_amount` strictly
less than the ask reserve. -/
theorem compute_swap_payout_lt_ask_reserve (op ap oa rate ret sp com : Nat)
    (hop : 1 ≤ op) (hap : 1 ≤ ap)
    (hscale : op + oa ≤ DECIMAL_FRACTIONAL)
    (h : compute_swap op ap oa rate = some (ret, sp, com)) :
    ret + com < ap := by
  obtain ⟨hd, hop0, htle, hpv, hsp, hcom, hcle, hret⟩ := compute_swap_eq_some_inv h
  have hdpos : 0 < op + oa := by omega
  have hceil := toUintCeil_fromFrac (op * ap) hdpos hscale
  have hcp : 1 ≤ op * ap := Nat.mul_pos hop hap
  have ht1 : 1 ≤ (op * ap + (op + oa) - 1) / (op + oa) := by
    rw [Nat.one_le_div_iff hdpos]
    omega
  rw [hceil] at htle hcle hret
  omega

/-- C10, witness: the amended theorem applied to the pool `(10^6, 10^6)`
with offer `1000` and fee `0.3%`: the payout `997 + 2` is below `10^6`. -/
theorem compute_swap_payout_lt_ask_reserve_witness : 997 + 2 < 1000000 :=
  compute_swap_payout_lt_ask_reserve 1000000 1000000 1000 (3 * 10 ^ 15)
    997 1 2 (by norm_num) (by norm_num) (by norm_num [DECIMAL_FRACTIONAL])
    (by decide)

/-!  ## Claim C4: the reverse-swap error threshold and formula -/

/-- C4, counterexample: at `offer_reserve = 1`, `ask_reserve = 10`,
`ask_amount = 7`, fee `0.3`, the exact quotient `7 / (1 - 0.3) = 10` is at
least the ask reserve, yet `compute_offer_amount` does not report an error:
it returns `(9, 81, 2)`, because the fixed-point evaluation of
`ask_amount / (1 - fee_rate)` floors to `9 < 10`. -/
theorem compute_offer_amount_no_error_at_boundary :
    compute_offer_amount 1 10 7 (3 * 10 ^ 17) = some (9, 81, 2) ∧
    10 * (DECIMAL_FRACTIONAL - 3 * 10 ^ 17) ≤ 7 * DECIMAL_FRACTIONAL := by
  constructor
  · decide
  · decide

/-- C4, amended: the error threshold is the fixed-point value
`A = ⌊ask_amount · ⌊10^36 / (10^18 - rate)⌋ / 10^18⌋` rather than the exact
quotient: whenever `A ≥ ask_reserve` the call fails (aborts), and whenever
it succeeds the offer amount is `⌊k / (ask_reserve - A)⌋ - offer_reserve`
with `k = offer_reserve * ask_reserve`. -/
theorem compute_offer_amount_threshold (op ap aa rate : Nat)
    (hrate : rate < DECIMAL_FRACTIONAL) :
    (ap ≤ aa * (DECIMAL_FRACTIONAL * DECIMAL_FRACTIONAL /
        (DECIMAL_FRACTIONAL - rate)) / DECIMAL_FRACTIONAL →
      compute_offer_amount op ap aa rate = none) ∧
    (∀ o s c, compute_offer_amount op ap aa rate = some (o, s, c) →
      o = op * ap / (ap - aa * (DECIMAL_FRACTIONAL * DECIMAL_FRACTIONAL /
        (DECIMAL_FRACTIONAL - rate)) / DECIMAL_FRACTIONAL) - op) := by
  constructor
  · intro hA
    unfold compute_offer_amount
    cases hcp : narrowU128 (op * ap) with
    | none => simp [bind, hcp]
    | some cp =>
      simp only [bind, hcp, Option.some_bind]
      rw [checkedSub_of_le (Nat.le_of_lt hrate)]
      simp only [Option.some_bind]
      rw [decimal256FromFrac_of (by omega) (DF_sq_div_lt rate)]
      simp only [Option.some_bind]
      by_cases hAlt : aa * (DECIMAL_FRACTIONAL * DECIMAL_FRACTIONAL /
          (DECIMAL_FRACTIONAL - rate)) / DECIMAL_FRACTIONAL < U256LIM
      · rw [mulFloorU256_of hAlt]
        simp only [Option.some_bind]
        by_cases hApeq : aa * (DECIMAL_FRACTIONAL * DECIMAL_FRACTIONAL /
            (DECIMAL_FRACTIONAL - rate)) / DECIMAL_FRACTIONAL ≤ ap
        · rw [checkedSub_of_le hApeq,
            show ap - aa * (DECIMAL_FRACTIONAL * DECIMAL_FRACTIONAL /
              (DECIMAL_FRACTIONAL - rate)) / DECIMAL_FRACTIONAL = 0 by omega]
          simp only [Option.some_bind]
          unfold multiplyFracU256
          simp
        · rw [checkedSub_of_lt (by omega)]
          rfl
      · unfold mulFloorU256 narrowU256
        rw [if_neg (by omega)]
        rfl
  · intro o s c h
    have hv := compute_offer_amount_eq_some_inv h
    rw [Nat.mul_one] at hv
    exact hv.2.2.2.2

/-- C4, witness: at `offer_reserve = 1`, `ask_reserve = 10`,
`ask_amount = 10`, zero fee, the threshold value equals the ask reserve and
the call fails. -/
theorem compute_offer_amount_threshold_witness :
    compute_offer_amount 1 10 10 0 = none :=
  (compute_offer_amount_threshold 1 10 10 0
    (by norm_num [DECIMAL_FRACTIONAL])).1 (by decide)

/-!  ## Claim C5: the TWAP accumulator -/

/-- C5: `accumulate_prices` is a no-op when `now ≤ last_time`; when time
advanced and both reserves are nonzero each cumulative advances by exactly
`elapsed_seconds * price_precision * (other_reserve / this_reserve)` (floor)
with wraparound addition at the 128-bit width; when time advanced but a
reserve is zero, the cumulatives are returned unchanged while the time
pointer advances.  (The block time is a `u64`, so the
`checked_mul` by the precision never overflows; the per-reserve bounds say
the `multiply_ratio` narrowing succeeds.) -/
theorem accumulate_prices_spec (bt btl x y pcl0 pcl1 : Nat)
    (hbt : bt < 2 ^ 64) :
    (bt ≤ btl → accumulate_prices bt btl x y pcl0 pcl1 = some none) ∧
    (btl < bt → x ≠ 0 → y ≠ 0 →
      (bt - btl) * price_precision * y / x < U128LIM →
      (bt - btl) * price_precision * x / y < U128LIM →
      accumulate_prices bt btl x y pcl0 pcl1 =
        some (some ((pcl0 + (bt - btl) * price_precision * y / x) % U128LIM,
          (pcl1 + (bt - btl) * price_precision * x / y) % U128LIM, bt))) ∧
    (btl < bt → (x = 0 ∨ y = 0) →
      accumulate_prices bt btl x y pcl0 pcl1 = some (some (pcl0, pcl1, bt))) := by
  refine ⟨?_, ?_, ?_⟩
  · intro h
    unfold accumulate_prices
    rw [if_pos h]
  · intro h hx hy h1 h2
    have hm : (bt - btl) * price_precision < U128LIM := by
      have he : bt - btl < 2 ^ 64 := by omega
      calc (bt - btl) * price_precision < 2 ^ 64 * price_precision :=
            (Nat.mul_lt_mul_right (by norm_num [price_precision,
              TWAP_PRECISION])).mpr he
        _ < U128LIM := by norm_num [price_precision, TWAP_PRECISION, U128LIM]
    unfold accumulate_prices
    rw [if_neg (by omega), if_pos ⟨hx, hy⟩]
    rw [narrowU128_of_lt hm]
    simp only [bind, Option.some_bind]
    rw [multiplyFracU128_of hx h1]
    simp only [Option.some_bind]
    rw [multiplyFracU128_of hy h2]
    simp only [Option.some_bind]
  · intro h hxy
    unfold accumulate_prices
    rw [if_neg (by omega), if_neg (by tauto)]

/-- C5, witness: over an interval of 100 seconds with reserves `(50, 25)`
the two cumulatives advance by `100 · 10^6 · 25/50` and
`100 · 10^6 · 50/25`. -/
theorem accumulate_prices_spec_witness :
    accumulate_prices 200 100 50 25 7 9 =
      some (some ((7 + (200 - 100) * price_precision * 25 / 50) % U128LIM,
        (9 + (200 - 100) * price_precision * 50 / 25) % U128LIM, 200)) :=
  (accumulate_prices_spec 200 100 50 25 7 9 (by norm_num)).2.1 (by norm_num)
    (by norm_num) (by norm_num) (by decide) (by decide)

/-!  ## Claim C6: the liquidity-provision share formula -/

/-- C6: with both deposits positive and the pre-deposit reserves `r0, r1`
(for a native asset the queried balance is the pre-deposit reserve plus the
just-received deposit; for a token asset it is the pre-deposit reserve
itself), a bootstrap deposit mints the integer square root of `d0 * d1`,
and a later deposit mints
`min(d0 * total_share / r0, d1 * total_share / r1)`. -/
theorem provide_liquidity_share_spec (d0 d1 r0 r1 ts : Nat) (n0 n1 : Bool)
    (hd0 : 0 < d0) (hd1 : 0 < d1)
    (hd0L : d0 < U128LIM) (hd1L : d1 < U128LIM) :
    (ts = 0 →
      provide_liquidity_share d0 d1 (if n0 then r0 + d0 else r0)
          (if n1 then r1 + d1 else r1) n0 n1 ts =
        some (Nat.sqrt (d0 * d1))) ∧
    (ts ≠ 0 → d0 * ts / r0 < U128LIM → d1 * ts / r1 < U128LIM →
      r0 ≠ 0 → r1 ≠ 0 →
      provide_liquidity_share d0 d1 (if n0 then r0 + d0 else r0)
          (if n1 then r1 + d1 else r1) n0 n1 ts =
        some (min (d0 * ts / r0) (d1 * ts / r1))) := by
  have hz : ¬ (d0 = 0 ∨ d1 = 0) := by omega
  have hp0 : adjustPool n0 (if n0 then r0 + d0 else r0) d0 = some r0 := by
    cases n0 <;> simp [adjustPool, checkedSub_of_le, Nat.add_sub_cancel]
  have hp1 : adjustPool n1 (if n1 then r1 + d1 else r1) d1 = some r1 := by
    cases n1 <;> simp [adjustPool, checkedSub_of_le, Nat.add_sub_cancel]
  constructor
  · intro hts
    unfold provide_liquidity_share
    rw [if_neg hz]
    rw [hp0]
    simp only [bind, Option.some_bind]
    rw [hp1]
    simp only [Option.some_bind]
    rw [if_pos hts]
    apply narrowU128_of_lt
    rw [show U128LIM = 2 ^ 128 from rfl, Nat.sqrt_lt', show ((2:Nat) ^ 128) ^ 2 =
      2 ^ 128 * 2 ^ 128 by ring]
    exact Nat.mul_lt_mul_of_lt_of_lt hd0L hd1L
  · intro hts h0 h1 hr0 hr1
    unfold provide_liquidity_share
    rw [if_neg hz]
    rw [hp0]
    simp only [bind, Option.some_bind]
    rw [hp1]
    simp only [Option.some_bind]
    rw [if_neg hts]
    rw [multiplyFracU128_of hr0 h0]
    simp only [Option.some_bind]
    rw [multiplyFracU128_of hr1 h1]
    simp only [Option.some_bind]

/-- C6, witness: a first `(100, 100)` deposit mints
`sqrt(100 * 100) = 100` shares, and a second `(100, 100)` deposit against
pre-deposit reserves `(100, 100)` (the native side queried as `200`) and
total share `100` mints `min(100·100/100, 100·100/100) = 100` more. -/
theorem provide_liquidity_share_spec_witness :
    provide_liquidity_share 100 100 100 100 false false 0 = some 100 ∧
    provide_liquidity_share 100 100 200 100 true false 100 = some 100 := by
  constructor
  · have h := (provide_liquidity_share_spec 100 100 100 100 0 false false
      (by norm_num) (by norm_num) (by norm_num [U128LIM])
      (by norm_num [U128LIM])).1 rfl
    have hs : Nat.sqrt 10000 = 100 := by
      rw [show (10000 : Nat) = 100 * 100 by norm_num]
      exact Nat.sqrt_eq 100
    simpa [hs] using h
  · have h := (provide_liquidity_share_spec 100 100 100 100 100 true false
      (by norm_num) (by norm_num) (by norm_num [U128LIM])
      (by norm_num [U128LIM])).2 (by norm_num) (by norm_num [U128LIM])
      (by norm_num [U128LIM]) (by norm_num) (by norm_num)
    simpa using h

/-!  ## Claim C7: pro-rata withdrawal refunds and instructions -/

/-- C7: for a withdrawal of `amt ≤ total_share` shares against a pool with
positive total share supply and `Uint128` reserves, the refund of each
asset is `⌊reserve_i · ⌊amt · 10^18 / total_share⌋ / 10^18⌋` — the share
ratio is formed as an 18-decimal fixed-point value before the
multiplication — and the call emits the two asset transfers followed by the
burn of the withdrawn shares. -/
theorem withdraw_liquidity_spec (p0 p1 ts amt : Nat)
    (hts : 0 < ts) (hamt : amt ≤ ts)
    (hp0 : p0 < U128LIM) (hp1 : p1 < U128LIM) :
    withdraw_liquidity p0 p1 ts amt =
      some [Instr.transfer 0
          (p0 * (amt * DECIMAL_FRACTIONAL / ts) / DECIMAL_FRACTIONAL),
        Instr.transfer 1
          (p1 * (amt * DECIMAL_FRACTIONAL / ts) / DECIMAL_FRACTIONAL),
        Instr.burn amt] := by
  have hS := DECIMAL_FRACTIONAL_pos
  have hratio : amt * DECIMAL_FRACTIONAL / ts ≤ DECIMAL_FRACTIONAL := by
    have h1 : amt * DECIMAL_FRACTIONAL ≤ ts * DECIMAL_FRACTIONAL :=
      Nat.mul_le_mul_right _ hamt
    have h2 : amt * DECIMAL_FRACTIONAL / ts ≤ ts * DECIMAL_FRACTIONAL / ts :=
      Nat.div_le_div_right h1
    rwa [Nat.mul_div_cancel_left _ hts] at h2
  have hratioLim : amt * DECIMAL_FRACTIONAL / ts < U128LIM := by
    have : DECIMAL_FRACTIONAL < U128LIM := by
      norm_num [DECIMAL_FRACTIONAL, U128LIM]
    omega
  have hr0 : p0 * (amt * DECIMAL_FRACTIONAL / ts) / DECIMAL_FRACTIONAL <
      U128LIM := by
    have h1 : p0 * (amt * DECIMAL_FRACTIONAL / ts) ≤ p0 * DECIMAL_FRACTIONAL :=
      Nat.mul_le_mul_left _ hratio
    have h2 : p0 * (amt * DECIMAL_FRACTIONAL / ts) / DECIMAL_FRACTIONAL ≤
        p0 * DECIMAL_FRACTIONAL / DECIMAL_FRACTIONAL := Nat.div_le_div_right h1
    rw [Nat.mul_div_cancel _ hS] at h2
    omega
  have hr1 : p1 * (amt * DECIMAL_FRACTIONAL / ts) / DECIMAL_FRACTIONAL <
      U128LIM := by
    have h1 : p1 * (amt * DECIMAL_FRACTIONAL / ts) ≤ p1 * DECIMAL_FRACTIONAL :=
      Nat.mul_le_mul_left _ hratio
    have h2 : p1 * (amt * DECIMAL_FRACTIONAL / ts) / DECIMAL_FRACTIONAL ≤
        p1 * DECIMAL_FRACTIONAL / DECIMAL_FRACTIONAL := Nat.div_le_div_right h1
    rw [Nat.mul_div_cancel _ hS] at h2
    omega
  unfold withdraw_liquidity get_share_in_assets decimalFromFrac
  rw [if_neg (by omega : ¬ ts = 0), if_neg (by omega : ¬ ts = 0)]
  rw [narrowU128_of_lt hratioLim]
  simp only [bind, Option.some_bind]
  unfold mulFloorU128
  rw [narrowU128_of_lt hr0]
  simp only [Option.some_bind]
  rw [narrowU128_of_lt hr1]
  simp only [Option.some_bind]

/-- C7, witness: burning 25 of 100 shares against reserves `(1000, 500)`
transfers `250` and `125` and burns the 25 shares. -/
theorem withdraw_liquidity_spec_witness :
    withdraw_liquidity 1000 500 100 25 =
      some [Instr.transfer 0 250, Instr.transfer 1 125, Instr.burn 25] := by
  have h := withdraw_liquidity_spec 1000 500 100 25 (by norm_num)
    (by norm_num) (by norm_num [U128LIM]) (by norm_num [U128LIM])
  simpa [DECIMAL_FRACTIONAL] using h

/-!  ## Claim C8: the staking Enter mint amount -/

/-- C8: `Enter(amount)` first nets the just-arrived deposit out of the
freshly queried balance; it mints `amount` when the share supply or the
netted total deposit is zero, and otherwise
`⌊amount * total_shares / total_deposit⌋` over the netted pre-deposit
total. -/
theorem enter_spec (q ts a : Nat) (hqa : a ≤ q) (hm : a * ts < U128LIM) :
    enter q ts a =
      some (if ts = 0 ∨ q - a = 0 then a else a * ts / (q - a)) := by
  unfold enter
  rw [checkedSub_of_le hqa]
  simp only [bind, Option.some_bind]
  by_cases h : ts = 0 ∨ q - a = 0
  · rw [if_pos h, if_pos h]
  · rw [if_neg h, if_neg h, narrowU128_of_lt hm]
    simp only [Option.some_bind]

/-- C8, witness: `Enter(10)` against a netted total deposit of `120`
(queried `130`) and `100` shares mints `⌊10·100/120⌋ = 8` shares (floor,
not ceiling), and `Enter(100)` into an empty pool mints `100`. -/
theorem enter_spec_witness :
    enter 130 100 10 = some 8 ∧ enter 100 0 100 = some 100 := by
  constructor
  · have h := enter_spec 130 100 10 (by norm_num) (by norm_num [U128LIM])
    simpa using h
  · have h := enter_spec 100 0 100 (by norm_num) (by norm_num [U128LIM])
    simpa using h

/-!  ## Claim C9: the bridge depth bound -/

/-- Soundness of `validate_bridge`: a validated edge has a pool, and from
the bridge token the configured chain reaches the protocol token within
`BRIDGES_MAX_DEPTH - depth` further hops, with a pool at every hop. -/
theorem validate_bridge_ok_reaches (pools : Nat → Nat → Bool)
    (bridges : Nat → Option Nat) (astro : Nat) :
    ∀ n f t depth, BRIDGES_MAX_DEPTH - depth = n →
      validate_bridge pools bridges astro f t depth = .ok () →
      pools f t = true ∧ reachesAstro pools bridges astro t n = true := by
  intro n
  induction n with
  | zero =>
    intro f t depth hn h
    unfold validate_bridge at h
    split at h
    · exact absurd h (by simp)
    · split at h
      · refine ⟨by simp_all, ?_⟩
        unfold reachesAstro
        assumption
      · rw [if_pos (by omega : BRIDGES_MAX_DEPTH ≤ depth)] at h
        exact absurd h (by simp)
  | succ n ih =>
    intro f t depth hn h
    unfold validate_bridge at h
    split at h
    · exact absurd h (by simp)
    · rename_i hpoolft
      split at h
      · rename_i hdirect
        refine ⟨by simp_all, ?_⟩
        unfold reachesAstro
        rw [hdirect]
        simp
      · rename_i hnodirect
        rw [if_neg (by omega : ¬ BRIDGES_MAX_DEPTH ≤ depth)] at h
        cases hbr : bridges t with
        | none => rw [hbr] at h; exact absurd h (by simp)
        | some next =>
          rw [hbr] at h
          obtain ⟨hpool, hreach⟩ := ih t next (depth + 1) (by omega) h
          refine ⟨by simp_all, ?_⟩
          unfold reachesAstro
          rw [hbr]
          simp [hpool, hreach]

/-- C9: if the pool for the new edge is missing, or the configured bridge
chain starting at the destination token does not reach the protocol token
within `BRIDGES_MAX_DEPTH` hops (with a real pool at every hop), then
`validate_bridge` — which `AddBridge` runs at `BRIDGES_INITIAL_DEPTH` —
reports an error, so no over-deep or pool-less bridge chain is ever
accepted at configuration time. -/
theorem validate_bridge_depth_bound (pools : Nat → Nat → Bool)
    (bridges : Nat → Option Nat) (astro f t : Nat)
    (hfail : pools f t = false ∨
      reachesAstro pools bridges astro t BRIDGES_MAX_DEPTH = false) :
    ∃ e, validate_bridge pools bridges astro f t BRIDGES_INITIAL_DEPTH =
      .error e := by
  cases hv : validate_bridge pools bridges astro f t BRIDGES_INITIAL_DEPTH with
  | error e => exact ⟨e, rfl⟩
  | ok u =>
    cases u
    obtain ⟨hpool, hreach⟩ := validate_bridge_ok_reaches pools bridges astro
      BRIDGES_MAX_DEPTH f t BRIDGES_INITIAL_DEPTH rfl hv
    rcases hfail with hfail | hfail
    · rw [hpool] at hfail
      exact absurd hfail (by simp)
    · rw [hreach] at hfail
      exact absurd hfail (by simp)

/-- C9, witness: with no pools configured at all, adding the edge `1 → 2`
is rejected. -/
theorem validate_bridge_depth_bound_witness :
    ∃ e, validate_bridge (fun _ _ => false) (fun _ => none) 0 1 2
      BRIDGES_INITIAL_DEPTH = .error e :=
  validate_bridge_depth_bound (fun _ _ => false) (fun _ => none) 0 1 2
    (Or.inl rfl)

end Astroport
